import Mathlib

/- Verification of the Sharpe-ratio analysis script ("Sharp ratio" notebook,
   project 3) of the Quantitative-Finance-projects repository.

   Shallow embedding: a price DataFrame is a list of (ticker, Adj Close
   series) pairs, pandas column operations become per-series list
   operations over ℝ, and the external market-data provider is an oracle
   argument recording the outcome of each network fetch. -/

namespace SharpRatio

/-- pandas `Series.pct_change().dropna()`: one-step percentage changes of a
price series, `price(t)/price(t-1) - 1`, with the undefined first entry
dropped. -/
noncomputable def pct_change (prices : List ℝ) : List ℝ :=
  List.zipWith (fun prev cur => cur / prev - 1) prices prices.tail

/-- pandas `Series.mean()`: arithmetic mean (sum over length). -/
noncomputable def mean (l : List ℝ) : ℝ := l.sum / l.length

/-- pandas sample variance (default `ddof=1`): squared deviations from the
mean summed and divided by `n - 1`. -/
noncomputable def sample_var (l : List ℝ) : ℝ :=
  ((l.map fun x => (x - mean l) ^ 2).sum) / ((l.length - 1 : ℕ) : ℝ)

/-- pandas `Series.std()` (default `ddof=1`): sample standard deviation. -/
noncomputable def std (l : List ℝ) : ℝ := Real.sqrt (sample_var l)

/-- The constant `trading_days = 252` of `calculate_sharpe_ratio`. -/
def trading_days : ℕ := 252

/-- One row of the results DataFrame built by `calculate_sharpe_ratio`,
with the notebook's column names. -/
structure SharpeRow where
  Annual_Return : ℝ
  Annual_Volatility : ℝ
  Excess_Return : ℝ
  Sharpe_Ratio : ℝ
  Annual_Return_Pct : ℝ
  Annual_Volatility_Pct : ℝ
  Excess_Return_Pct : ℝ

/-- The per-stock computation of `calculate_sharpe_ratio`: pandas applies
each column operation independently to each stock's series. -/
noncomputable def sharpe_metrics (prices : List ℝ) (risk_free_rate : ℝ) :
    SharpeRow :=
  let daily_returns := pct_change prices
  let annual_returns := (1 + mean daily_returns) ^ trading_days - 1
  let annual_volatility := std daily_returns * Real.sqrt trading_days
  let excess_returns := annual_returns - risk_free_rate
  let sharpe_ratios := excess_returns / annual_volatility
  { Annual_Return := annual_returns
    Annual_Volatility := annual_volatility
    Excess_Return := excess_returns
    Sharpe_Ratio := sharpe_ratios
    Annual_Return_Pct := annual_returns * 100
    Annual_Volatility_Pct := annual_volatility * 100
    Excess_Return_Pct := excess_returns * 100 }

/-- Function `calculate_sharpe_ratio(df, risk_free_rate)`: takes the `Adj Close`
columns of the downloaded DataFrame and returns one `SharpeRow` per
stock. -/
noncomputable def calculate_sharpe_ratio (df : List (String × List ℝ))
    (risk_free_rate : ℝ) : List (String × SharpeRow) :=
  df.map fun p => (p.1, sharpe_metrics p.2 risk_free_rate)

/-- Function `get_risk_free_rate()`: the fetch of `^IRX` and the extraction of its
last Close are summarised by an `Except` outcome; the function body wraps
them in `try/except`, returning last Close divided by 100 on success and
printing a message and returning the default `0.02` on any exception.
The second component is the list of lines it prints. -/
noncomputable def get_risk_free_rate (fetch : Except String ℝ) : ℝ × List String :=
  match fetch with
  | .ok lastClose => (lastClose / 100, [])
  | .error e =>
      (0.02, ["Could not fetch current risk-free rate (" ++ e ++
        "), using default 2%"])

/-- The second implementation (final notebook cell): the inline loop's
Sharpe ratio for one stock. Daily returns are shifted by the daily
risk-free rate `risk_free_rate / 252`, then
`(mean * 252) / (std * sqrt 252)`. -/
noncomputable def inline_sharpe_ratio (prices : List ℝ)
    (risk_free_rate : ℝ) : ℝ :=
  let daily_returns := pct_change prices
  let daily_rfr := risk_free_rate / 252
  let excess_daily_return := daily_returns.map fun x => x - daily_rfr
  let avg_excess_return := mean excess_daily_return
  let std_dev := std excess_daily_return
  (avg_excess_return * 252) / (std_dev * Real.sqrt 252)

/-- The request the script hands to `yf.download` for the stock data:
ticker list, `start`, `end` (times in days, the unit of
`dt.timedelta(days=...)`), and the `auto_adjust=False` flag. -/
structure DownloadRequest where
  tickers : List String
  start : ℤ
  stop : ℤ
  auto_adjust : Bool

/-- The literal ticker list `stocks = ["MSFT", "QQQ", "INTC", "SPY"]`. -/
def stocks : List String := ["MSFT", "QQQ", "INTC", "SPY"]

/-- The request built by the download cell at current time `now` (in days):
`end = dt.datetime.now()`, `start = end - dt.timedelta(days=365 * 5)`. -/
def stock_download_request (now : ℤ) : DownloadRequest :=
  { tickers := stocks
    start := now - 365 * 5
    stop := now
    auto_adjust := false }

/-- Outcomes of the two network fetches a run performs: the stock-price
download and the risk-free-rate download (the latter bundled with the
extraction of its last Close, the expression guarded by the `try`). -/
structure MarketOracle where
  stockFetch : Except String (List (String × List ℝ))
  irxFetch : Except String ℝ

/-- Modelled from the spec: the body of the provider's `yf.download` is not
part of the repository; per the spec a provider failure is "not
classified, retried, or surfaced beyond a printed message", so a failed
download yields an empty table plus a printed line rather than a raised
exception. -/
def yf_download (outcome : Except String (List (String × List ℝ))) :
    (List (String × List ℝ)) × List String :=
  match outcome with
  | .ok table => (table, [])
  | .error e => ([], ["Failed download: " ++ e])

/-- Sorting `sharpe_results.sort_values` on column `Sharpe_Ratio`: the
results table sorted by the `Sharpe_Ratio` column, descending. -/
def sharpe_desc (a b : String × SharpeRow) : Prop :=
  b.2.Sharpe_Ratio ≤ a.2.Sharpe_Ratio

noncomputable instance : DecidableRel sharpe_desc :=
  fun a b => Real.decidableLE b.2.Sharpe_Ratio a.2.Sharpe_Ratio

noncomputable def sort_values_sharpe_descending
    (results : List (String × SharpeRow)) : List (String × SharpeRow) :=
  List.insertionSort sharpe_desc results

/-- Rounding `.round(4)`: a value rounded to 4 decimal places. -/
noncomputable def round4 (x : ℝ) : ℝ := (round (x * 10000) : ℤ) / 10000

/-- Rounding `.round(4)` applied to a whole results row. -/
noncomputable def round4_row (r : SharpeRow) : SharpeRow :=
  { Annual_Return := round4 r.Annual_Return
    Annual_Volatility := round4 r.Annual_Volatility
    Excess_Return := round4 r.Excess_Return
    Sharpe_Ratio := round4 r.Sharpe_Ratio
    Annual_Return_Pct := round4 r.Annual_Return_Pct
    Annual_Volatility_Pct := round4 r.Annual_Volatility_Pct
    Excess_Return_Pct := round4 r.Excess_Return_Pct }

/-- Everything observable about one run of the script: the stock request
it issues, how many times it calls each network endpoint, the exception it
lets escape (if any), the rate it settles on, the results before and after
sorting, the fetch-failure lines it prints, and the files it writes. -/
structure ScriptRun where
  request : DownloadRequest
  stockFetchCalls : ℕ
  irxFetchCalls : ℕ
  raised : Option String
  risk_free_rate : ℝ
  sharpe_results : List (String × SharpeRow)
  sharpe_results_sorted : List (String × SharpeRow)
  printed : List String
  fileWrites : List (String × List (String × SharpeRow))

/-- The whole script, cell by cell: download the stock data (one call),
fetch the risk-free rate (one call, guarded), compute the Sharpe table,
sort it descending, and write the single CSV
`sharpe_ratio_analysis.csv` of the sorted table rounded to 4 decimals. -/
noncomputable def run_script (now : ℤ) (o : MarketOracle) : ScriptRun :=
  let dl := yf_download o.stockFetch
  let rfr := get_risk_free_rate o.irxFetch
  let results := calculate_sharpe_ratio dl.1 rfr.1
  let sorted := sort_values_sharpe_descending results
  { request := stock_download_request now
    stockFetchCalls := 1
    irxFetchCalls := 1
    raised := none
    risk_free_rate := rfr.1
    sharpe_results := results
    sharpe_results_sorted := sorted
    printed := dl.2 ++ rfr.2
    fileWrites := [("sharpe_ratio_analysis.csv",
      sorted.map fun p => (p.1, round4_row p.2))] }

/-- C1: every exception of the risk-free-rate fetch is caught: the
function prints one message and returns the hardcoded default `0.02`;
without an exception it returns the fetched last Close divided by 100
and prints nothing. -/
theorem C1_risk_free_rate_fallback :
    (∀ e : String, get_risk_free_rate (.error e) =
      (0.02, ["Could not fetch current risk-free rate (" ++ e ++
        "), using default 2%"])) ∧
    (∀ v : ℝ, get_risk_free_rate (.ok v) = (v / 100, [])) :=
  ⟨fun _ => rfl, fun _ => rfl⟩

/-- C2: in every row `calculate_sharpe_ratio` returns, the
`Sharpe_Ratio` column equals the excess of the `Annual_Return` column
over the risk-free rate divided by the `Annual_Volatility` column. -/
theorem C2_sharpe_ratio_column (df : List (String × List ℝ)) (r : ℝ)
    (p : String × SharpeRow) (hp : p ∈ calculate_sharpe_ratio df r) :
    p.2.Sharpe_Ratio = (p.2.Annual_Return - r) / p.2.Annual_Volatility := by
  simp only [calculate_sharpe_ratio, List.mem_map] at hp
  obtain ⟨q, _, rfl⟩ := hp
  rfl

theorem C2_witness :
    (("MSFT", sharpe_metrics [1, 2] 0) ∈
      calculate_sharpe_ratio [("MSFT", [1, 2])] 0) ∧
    (sharpe_metrics [1, 2] 0).Sharpe_Ratio =
      ((sharpe_metrics [1, 2] 0).Annual_Return - 0) /
        (sharpe_metrics [1, 2] 0).Annual_Volatility := by
  have hm : ("MSFT", sharpe_metrics [1, 2] 0) ∈
      calculate_sharpe_ratio [("MSFT", [1, 2])] 0 := by
    simp [calculate_sharpe_ratio]
  exact ⟨hm, C2_sharpe_ratio_column [("MSFT", [1, 2])] 0 _ hm⟩

/-- C3: for a price series with at least two observations the derived
returns series has exactly one fewer row than the price series, and its
entry at position `i` (pairing with the second through last dates) is
`price(i+1)/price(i) - 1`. -/
theorem C3_pct_change_returns (prices : List ℝ) (h : 2 ≤ prices.length) :
    (pct_change prices).length = prices.length - 1 ∧
    ∀ (i : ℕ) (a b : ℝ), prices[i]? = some a →
      prices[i + 1]? = some b →
      (pct_change prices)[i]? = some (b / a - 1) := by
  constructor
  · simp only [pct_change, List.length_zipWith, List.length_tail]
    omega
  · intro i a b ha hb
    have htail : prices.tail[i]? = some b := by
      cases prices with
      | nil => simp at ha
      | cons p ps => simpa using hb
    simp [pct_change, List.getElem?_zipWith', ha, htail]

theorem C3_witness :
    2 ≤ ([1, 2, 4] : List ℝ).length ∧
    (pct_change [1, 2, 4]).length = ([1, 2, 4] : List ℝ).length - 1 ∧
    (pct_change [1, 2, 4])[0]? = some ((2 : ℝ) / 1 - 1) := by
  have h := C3_pct_change_returns [1, 2, 4] (by simp)
  exact ⟨by simp, h.1, h.2 0 1 2 rfl rfl⟩

/-- C4: the download request of every run carries exactly the literal
ticker list `["MSFT", "QQQ", "INTC", "SPY"]` and a window of `365 * 5`
days ending at the current time, whatever the current time and the
oracle are. -/
theorem C4_fixed_tickers_and_window (now : ℤ) (o : MarketOracle) :
    (run_script now o).request.tickers = ["MSFT", "QQQ", "INTC", "SPY"] ∧
    (run_script now o).request.stop = now ∧
    (run_script now o).request.stop - (run_script now o).request.start =
      365 * 5 ∧
    (run_script now o).request.auto_adjust = false := by
  refine ⟨rfl, rfl, ?_, rfl⟩
  simp [run_script, stock_download_request]

/-- C5: a run calls each of the two network endpoints exactly once, lets
no exception escape, and surfaces a failed fetch only as a printed
message. -/
theorem C5_single_fetch_print_only (now : ℤ) (o : MarketOracle) :
    (run_script now o).stockFetchCalls = 1 ∧
    (run_script now o).irxFetchCalls = 1 ∧
    (run_script now o).raised = none ∧
    (∀ e, o.stockFetch = .error e →
      ("Failed download: " ++ e) ∈ (run_script now o).printed) ∧
    (∀ e, o.irxFetch = .error e →
      ("Could not fetch current risk-free rate (" ++ e ++
        "), using default 2%") ∈ (run_script now o).printed) := by
  refine ⟨rfl, rfl, rfl, ?_, ?_⟩
  · intro e he
    simp [run_script, yf_download, get_risk_free_rate, he]
  · intro e he
    simp [run_script, yf_download, get_risk_free_rate, he]

theorem C5_witness :
    (run_script 0 ⟨.error "no data", .error "no data"⟩).stockFetchCalls = 1 ∧
    ("Failed download: " ++ "no data") ∈
      (run_script 0 ⟨.error "no data", .error "no data"⟩).printed ∧
    ("Could not fetch current risk-free rate (" ++ "no data" ++
      "), using default 2%") ∈
      (run_script 0 ⟨.error "no data", .error "no data"⟩).printed := by
  refine ⟨(C5_single_fetch_print_only 0 _).1, ?_, ?_⟩
  · exact (C5_single_fetch_print_only 0 ⟨.error "no data", .error "no data"⟩).2.2.2.1
      "no data" rfl
  · exact (C5_single_fetch_print_only 0 ⟨.error "no data", .error "no data"⟩).2.2.2.2
      "no data" rfl

/-- C6: the only file a run writes is the single CSV
`sharpe_ratio_analysis.csv`, holding the sorted results table rounded to
4 decimal places. -/
theorem C6_single_csv_write (now : ℤ) (o : MarketOracle) :
    (run_script now o).fileWrites =
      [("sharpe_ratio_analysis.csv",
        (run_script now o).sharpe_results_sorted.map fun p =>
          (p.1, round4_row p.2))] :=
  rfl

/-- C7: the computation after the external fetch is deterministic: equal
price DataFrames and equal risk-free rates give equal result tables. -/
theorem C7_deterministic (df df' : List (String × List ℝ)) (r r' : ℝ)
    (hdf : df = df') (hr : r = r') :
    calculate_sharpe_ratio df r = calculate_sharpe_ratio df' r' := by
  rw [hdf, hr]

/-- A sum over a list of nonnegative values with one positive member is
positive. -/
theorem sum_map_pos_of_mem {l : List ℝ} {f : ℝ → ℝ}
    (h0 : ∀ x ∈ l, 0 ≤ f x) {a : ℝ} (ha : a ∈ l) (hfa : 0 < f a) :
    0 < (l.map f).sum := by
  induction l with
  | nil => simp at ha
  | cons y t ih =>
    rw [List.map_cons, List.sum_cons]
    rcases List.mem_cons.mp ha with rfl | hat
    · exact add_pos_of_pos_of_nonneg hfa
        (List.sum_nonneg fun x hx => by
          obtain ⟨z, hz, rfl⟩ := List.mem_map.mp hx
          exact h0 z (List.mem_cons_of_mem _ hz))
    · exact add_pos_of_nonneg_of_pos (h0 y (List.mem_cons_self _ _))
        (ih (fun x hx => h0 x (List.mem_cons_of_mem _ hx)) hat)

/-- A list holding two distinct elements has at least two entries. -/
theorem one_lt_length_of_mem_ne {l : List ℝ} {a b : ℝ}
    (ha : a ∈ l) (hb : b ∈ l) (hab : a ≠ b) : 1 < l.length := by
  match l with
  | [] => simp at ha
  | [x] =>
      simp only [List.mem_singleton] at ha hb
      exact absurd (ha.trans hb.symm) hab
  | x :: y :: t => simp only [List.length_cons]; omega

/-- The sample variance of a list holding two distinct elements is
strictly positive. -/
theorem sample_var_pos {l : List ℝ} {a b : ℝ}
    (ha : a ∈ l) (hb : b ∈ l) (hab : a ≠ b) : 0 < sample_var l := by
  have hlen : 1 < l.length := one_lt_length_of_mem_ne ha hb hab
  have hx : ∃ x ∈ l, x ≠ mean l := by
    by_cases hma : a = mean l
    · exact ⟨b, hb, fun hc => hab (hma.trans hc.symm)⟩
    · exact ⟨a, ha, hma⟩
  obtain ⟨x, hxl, hxm⟩ := hx
  have hnum : 0 < (l.map fun y => (y - mean l) ^ 2).sum :=
    sum_map_pos_of_mem (fun y _ => sq_nonneg _) hxl
      (pow_two_pos_of_ne_zero (sub_ne_zero.mpr hxm))
  have hden : (0 : ℝ) < ((l.length - 1 : ℕ) : ℝ) := by
    have : 1 ≤ l.length - 1 := by omega
    exact_mod_cast Nat.lt_of_lt_of_le Nat.zero_lt_one this
  exact div_pos hnum hden

/-- C9: the Sharpe-ratio division is unguarded: whenever the daily
returns are not all equal the divisor `Annual_Volatility` is nonzero, and
on a constant-growth price series such as `[1, 2, 4]` the code reaches
the division with a zero divisor and no guard or error branch. -/
theorem C9_unguarded_division :
    (∀ (prices : List ℝ) (r a b : ℝ), a ∈ pct_change prices →
      b ∈ pct_change prices → a ≠ b →
      (sharpe_metrics prices r).Annual_Volatility ≠ 0) ∧
    (∀ r : ℝ, (sharpe_metrics [1, 2, 4] r).Annual_Volatility = 0 ∧
      (sharpe_metrics [1, 2, 4] r).Sharpe_Ratio =
        (sharpe_metrics [1, 2, 4] r).Excess_Return / 0) := by
  constructor
  · intro prices r a b ha hb hab
    have hvar : 0 < sample_var (pct_change prices) := sample_var_pos ha hb hab
    have hstd : std (pct_change prices) ≠ 0 :=
      Real.sqrt_ne_zero'.mpr hvar
    have hsqrt : Real.sqrt (trading_days : ℝ) ≠ 0 := by
      rw [Real.sqrt_ne_zero']
      norm_num [trading_days]
    exact mul_ne_zero hstd hsqrt
  · intro r
    have hpc : pct_change [1, 2, 4] = [1, 1] := by
      norm_num [pct_change]
    have hvar : sample_var (pct_change ([1, 2, 4] : List ℝ)) = 0 := by
      rw [hpc]
      norm_num [sample_var, mean]
    have hvol : (sharpe_metrics [1, 2, 4] r).Annual_Volatility = 0 := by
      show std (pct_change [1, 2, 4]) * Real.sqrt trading_days = 0
      rw [std, hvar, Real.sqrt_zero, zero_mul]
    refine ⟨hvol, ?_⟩
    show (sharpe_metrics [1, 2, 4] r).Excess_Return /
        (sharpe_metrics [1, 2, 4] r).Annual_Volatility = _
    rw [hvol]

theorem C9_witness :
    (sharpe_metrics [1, 2, 2] (0 : ℝ)).Annual_Volatility ≠ 0 ∧
    (sharpe_metrics [1, 2, 4] (0 : ℝ)).Annual_Volatility = 0 := by
  constructor
  · exact C9_unguarded_division.1 [1, 2, 2] 0 1 0
      (by norm_num [pct_change]) (by norm_num [pct_change]) (by norm_num)
  · exact (C9_unguarded_division.2 0).1

/-- Subtracting a constant from every entry shifts the sum by `n * c`. -/
theorem sum_map_sub_const (l : List ℝ) (c : ℝ) :
    (l.map fun x => x - c).sum = l.sum - l.length * c := by
  induction l with
  | nil => simp
  | cons y t ih =>
      simp only [List.map_cons, List.sum_cons, List.length_cons, ih]
      push_cast
      ring

/-- Subtracting a constant from every entry shifts the mean by `c`. -/
theorem mean_map_sub_const {l : List ℝ} (h : l ≠ []) (c : ℝ) :
    mean (l.map fun x => x - c) = mean l - c := by
  have hn : ((l.length : ℝ)) ≠ 0 := by
    have := List.length_pos.mpr h
    positivity
  simp only [mean, List.length_map, sum_map_sub_const]
  field_simp

/-- Subtracting a constant from every entry leaves the sample variance
unchanged. -/
theorem sample_var_map_sub_const {l : List ℝ} (h : l ≠ []) (c : ℝ) :
    sample_var (l.map fun x => x - c) = sample_var l := by
  have hm := mean_map_sub_const h c
  simp only [sample_var, List.length_map, hm, List.map_map]
  have hfun : ((fun x => (x - (mean l - c)) ^ 2) ∘ fun x => x - c) =
      fun x : ℝ => (x - mean l) ^ 2 := by
    funext x
    simp only [Function.comp_apply]
    ring
  rw [hfun]

/-- Subtracting a constant from every entry leaves the sample standard
deviation unchanged. -/
theorem std_map_sub_const {l : List ℝ} (h : l ≠ []) (c : ℝ) :
    std (l.map fun x => x - c) = std l := by
  rw [std, std, sample_var_map_sub_const h]

/-- C8 counterexample: at the price series `[1, 2, 2]` with risk-free
rate `0`, the two Sharpe-ratio implementations disagree: the function
annualizes the return geometrically, the inline loop arithmetically. -/
theorem C8_counterexample :
    (sharpe_metrics [1, 2, 2] (0 : ℝ)).Sharpe_Ratio ≠
      inline_sharpe_ratio [1, 2, 2] 0 := by
  have hpc : pct_change [1, 2, 2] = [1, 0] := by
    norm_num [pct_change]
  have hmap : (([1, 0] : List ℝ).map fun x => x - 0 / 252) = [1, 0] := by
    norm_num
  have hmean : mean ([1, 0] : List ℝ) = 1 / 2 := by
    norm_num [mean]
  have hvar : sample_var ([1, 0] : List ℝ) = 1 / 2 := by
    norm_num [sample_var, mean]
  have hd : std ([1, 0] : List ℝ) * Real.sqrt 252 ≠ 0 := by
    refine mul_ne_zero ?_ (Real.sqrt_ne_zero'.mpr (by norm_num))
    rw [std, hvar]
    exact Real.sqrt_ne_zero'.mpr (by norm_num)
  simp only [sharpe_metrics, inline_sharpe_ratio, trading_days, hpc, hmap]
  push_cast
  intro heq
  rw [div_eq_div_iff hd hd] at heq
  have hnum := mul_right_cancel₀ hd heq
  rw [hmean] at hnum
  norm_num at hnum

/-- C8 amended: the two implementations share the annualized-volatility
denominator `std(daily returns) * sqrt 252` (the `r/252` shift leaves the
standard deviation unchanged) but differ in the numerator: the function
computes `(1 + mean)^252 - 1 - r`, the inline loop `252 * mean - r`. -/
theorem C8_amended_formulas (prices : List ℝ) (r : ℝ) :
    (sharpe_metrics prices r).Sharpe_Ratio =
      ((1 + mean (pct_change prices)) ^ 252 - 1 - r) /
        (std (pct_change prices) * Real.sqrt 252) ∧
    inline_sharpe_ratio prices r =
      (252 * mean (pct_change prices) - r) /
        (std (pct_change prices) * Real.sqrt 252) := by
  constructor
  · show ((1 + mean (pct_change prices)) ^ trading_days - 1 - r) /
        (std (pct_change prices) * Real.sqrt (trading_days : ℕ)) = _
    norm_num [trading_days]
  · by_cases hnil : pct_change prices = []
    · simp [inline_sharpe_ratio, hnil, mean, std, sample_var]
    · have hm := mean_map_sub_const hnil (r / 252)
      have hs := std_map_sub_const hnil (r / 252)
      simp only [inline_sharpe_ratio, hm, hs]
      congr 1
      ring

instance : IsTotal (String × SharpeRow) sharpe_desc :=
  ⟨fun a b => le_total b.2.Sharpe_Ratio a.2.Sharpe_Ratio⟩

instance : IsTrans (String × SharpeRow) sharpe_desc :=
  ⟨fun _ _ _ hab hbc => le_trans hbc hab⟩

/-- The element `getLast?` returns is a member of the list. -/
theorem mem_of_getLast?_eq {α : Type} {l : List α} {w : α}
    (h : l.getLast? = some w) : w ∈ l := by
  cases l with
  | nil => simp at h
  | cons a t =>
    have hne : a :: t ≠ [] := List.cons_ne_nil a t
    rw [List.getLast?_eq_getLast_of_ne_nil hne] at h
    obtain rfl : (a :: t).getLast hne = w := by injection h
    exact List.getLast_mem hne

/-- In a list sorted descending by Sharpe ratio, the last element is
below every element. -/
theorem sorted_getLast_le {l : List (String × SharpeRow)}
    (hs : l.Sorted sharpe_desc) {w : String × SharpeRow}
    (hw : l.getLast? = some w) : ∀ x ∈ l, sharpe_desc x w := by
  induction l with
  | nil => simp at hw
  | cons a t ih =>
    obtain ⟨ha, ht⟩ := List.sorted_cons.mp hs
    cases t with
    | nil =>
      obtain rfl : a = w := by simpa using hw
      intro x hx
      obtain rfl : x = a := by simpa using hx
      exact le_refl _
    | cons b u =>
      rw [List.getLast?_cons_cons] at hw
      intro x hx
      rcases List.mem_cons.mp hx with rfl | hxt
      · exact ha w (mem_of_getLast?_eq hw)
      · exact ih ht hw x hxt

/-- C10: after sorting descending by the `Sharpe_Ratio` column, the head
row's Sharpe ratio is a maximum over the whole table and the last row's a
minimum, and both rows come from the table. -/
theorem C10_sorted_extremes (rows : List (String × SharpeRow))
    (m w : String × SharpeRow)
    (hm : (sort_values_sharpe_descending rows).head? = some m)
    (hw : (sort_values_sharpe_descending rows).getLast? = some w) :
    m ∈ rows ∧ w ∈ rows ∧
    ∀ x ∈ rows, x.2.Sharpe_Ratio ≤ m.2.Sharpe_Ratio ∧
      w.2.Sharpe_Ratio ≤ x.2.Sharpe_Ratio := by
  have hperm : List.Perm (sort_values_sharpe_descending rows) rows :=
    List.perm_insertionSort sharpe_desc rows
  have hsorted : (sort_values_sharpe_descending rows).Sorted sharpe_desc :=
    List.sorted_insertionSort sharpe_desc rows
  have hlast := sorted_getLast_le hsorted hw
  have hwmem : w ∈ sort_values_sharpe_descending rows :=
    mem_of_getLast?_eq hw
  cases hs : sort_values_sharpe_descending rows with
  | nil => rw [hs] at hm; cases hm
  | cons a t =>
    rw [hs] at hm hperm
    obtain rfl : a = m := by simpa using hm
    obtain ⟨hhead, _⟩ := List.sorted_cons.mp (hs ▸ hsorted)
    refine ⟨hperm.subset (List.mem_cons_self _ _), hperm.subset (hs ▸ hwmem), ?_⟩
    intro x hx
    have hxs : x ∈ a :: t := hperm.mem_iff.mpr hx
    constructor
    · rcases List.mem_cons.mp hxs with rfl | hxt
      · exact le_refl _
      · exact hhead x hxt
    · exact hlast x (hs ▸ hxs)

theorem C10_witness :
    (sort_values_sharpe_descending
      [("MSFT", SharpeRow.mk 1 1 1 1 1 1 1)]).head? =
        some ("MSFT", SharpeRow.mk 1 1 1 1 1 1 1) ∧
    (sort_values_sharpe_descending
      [("MSFT", SharpeRow.mk 1 1 1 1 1 1 1)]).getLast? =
        some ("MSFT", SharpeRow.mk 1 1 1 1 1 1 1) ∧
    ("MSFT", SharpeRow.mk 1 1 1 1 1 1 1) ∈
      ([("MSFT", SharpeRow.mk 1 1 1 1 1 1 1)] :
        List (String × SharpeRow)) := by
  have hm : (sort_values_sharpe_descending
      [("MSFT", SharpeRow.mk 1 1 1 1 1 1 1)]).head? =
        some ("MSFT", SharpeRow.mk 1 1 1 1 1 1 1) := by
    simp [sort_values_sharpe_descending]
  have hw : (sort_values_sharpe_descending
      [("MSFT", SharpeRow.mk 1 1 1 1 1 1 1)]).getLast? =
        some ("MSFT", SharpeRow.mk 1 1 1 1 1 1 1) := by
    simp [sort_values_sharpe_descending]
  exact ⟨hm, hw, (C10_sorted_extremes _ _ _ hm hw).1⟩

theorem C7_witness :
    calculate_sharpe_ratio [("MSFT", [1, 2])] 0 =
      calculate_sharpe_ratio [("MSFT", [1, 2])] 0 :=
  C7_deterministic [("MSFT", [1, 2])] [("MSFT", [1, 2])] 0 0 rfl rfl

end SharpRatio
